import Mathlib

/-!
# droolswbutil: package `servletutil` (login.go)

A shallow embedding of `Login`, `Logout` and the handler of `ProxyDroosWB`.

The three functions are thin sequences of calls into the Go standard library
(`net/url`, `net/http`, `net/http/cookiejar`, `net`).  The embedding has three
layers:

* the pure parts of the standard library that the functions depend on
  (`URL.ResolveReference`, `URL.String`, `Values.Encode`, the cookie jar) are
  written out from the library's algorithm;
* the parts that talk to the outside world, or whose full algorithm is not
  needed (`url.Parse` of an arbitrary string, host canonicalisation, the HTTP
  exchange itself, dialing, hijacking), are fields of an environment, so every
  theorem holds for every behaviour of them;
* the functions of `login.go` are transcribed statement by statement on top.

Go strings are modelled by `String`; `error` values by `Error`; a function
returning `(*T, error)` where exactly one of the two is nil by `Except Error T`.
-/

namespace servletutil

/-! ## errors -/

/-- The error values `login.go` returns. -/
inductive Error where
  /-- an error returned by a library call and passed on unchanged -/
  | lib (msg : String)
  /-- the value of fmt.Errorf("unexpected status code %d", code) -/
  | unexpectedStatus (code : Int)
  /-- the value of errors.New(msg) -/
  | new (msg : String)
  deriving DecidableEq, Repr

/-! ## net/url -/

/-- The fields of `url.URL` that `Login` and `Logout` reach.  `Path` stands for
the path in the form `EscapedPath()` returns, which is what `ResolveReference`
and `String` work on; `User` for the userinfo in its `String()` form.  The
decoded path, Go's field `u.Path`, is `URL.decodedPath` below. -/
structure URL where
  Scheme : String := ""
  Opaque : String := ""
  User : Option String := none
  Host : String := ""
  Path : String := ""
  ForceQuery : Bool := false
  RawQuery : String := ""
  Fragment : String := ""
  deriving DecidableEq, Repr

/-- The segments of a path between slashes, as repeated `strings.Cut(s, "/")`
yields them. -/
def splitSlash : List Char → List (List Char)
  | [] => [[]]
  | c :: cs =>
    match splitSlash cs with
    | [] => [[]]
    | seg :: rest => if c = '/' then [] :: seg :: rest else (c :: seg) :: rest

/-- The slice `s[:strings.LastIndex(s, "/")+1]`: everything up to and including
the last slash, empty when there is none. -/
def uptoLastSlash (s : List Char) : List Char :=
  (s.reverse.dropWhile (fun c => c != '/')).reverse

/-- The slice `s[:i]` for `i = strings.LastIndexByte(s, '/')`, or `none` when
`i = -1`. -/
def beforeLastSlash (s : List Char) : Option (List Char) :=
  if s.contains '/' then some (uptoLastSlash s).dropLast else none

/-- One turn of the loop of `resolvePath`.  The state is the text written to
`dst` after its leading slash, and the flag `first`. -/
def resolveStep (st : List Char × Bool) (elem : List Char) : List Char × Bool :=
  if elem = ['.'] then (st.1, false)
  else if elem = ['.', '.'] then
    match beforeLastSlash st.1 with
    | none => ([], true)
    | some pre => (pre, st.2)
  else ((if st.2 then st.1 else st.1 ++ ['/']) ++ elem, false)

/-- The function `resolvePath(base, ref)` of net/url (RFC 3986, 5.2): the
reference replaces the last segment of the base, then dot segments are
removed. -/
def resolvePath (base ref : String) : String :=
  let full : List Char :=
    if ref.data = [] then base.data
    else if ref.data.head? ≠ some '/' then uptoLastSlash base.data ++ ref.data
    else ref.data
  if full = [] then ""
  else
    let elems := splitSlash full
    let st := elems.foldl resolveStep ([], true)
    let last := elems.getLast?
    let body := if last = some ['.'] ∨ last = some ['.', '.'] then st.1 ++ ['/'] else st.1
    -- dst holds '/' followed by body; a doubled leading slash is cut
    String.mk (if body.head? = some '/' then body else '/' :: body)

/-- The method `(*URL).ResolveReference`. -/
def URL.ResolveReference (u ref : URL) : URL :=
  let url : URL := if ref.Scheme = "" then { ref with Scheme := u.Scheme } else ref
  if ref.Scheme ≠ "" ∨ ref.Host ≠ "" ∨ ref.User ≠ none then
    { url with Path := resolvePath ref.Path "" }
  else if ref.Opaque ≠ "" then
    { url with User := none, Host := "", Path := "" }
  else
    let url : URL :=
      if ref.Path = "" ∧ ref.ForceQuery = false ∧ ref.RawQuery = "" then
        if ref.Fragment = "" then
          { url with RawQuery := u.RawQuery, Fragment := u.Fragment }
        else { url with RawQuery := u.RawQuery }
      else url
    if ref.Path = "" ∧ u.Opaque ≠ "" then
      { url with Opaque := u.Opaque, User := none, Host := "", Path := "" }
    else
      { url with Host := u.Host, User := u.User, Path := resolvePath u.Path ref.Path }

/-- Whether `shouldEscape(c, encodeQueryComponent)` holds for the byte `c`:
everything but letters, digits and `- _ . ~` is escaped. -/
def shouldEscape (c : Nat) : Bool :=
  !((97 ≤ c ∧ c ≤ 122) ∨ (65 ≤ c ∧ c ≤ 90) ∨ (48 ≤ c ∧ c ≤ 57)
    ∨ c = 45 ∨ c = 95 ∨ c = 46 ∨ c = 126)

/-- The digit `"0123456789ABCDEF"[n]`. -/
def upperhex (n : Nat) : Char :=
  if n < 10 then Char.ofNat (48 + n) else Char.ofNat (55 + n)

/-- What `escape(s, encodeQueryComponent)` writes for the byte `c`: a space
becomes a plus sign, any other escaped byte a percent sign and two digits. -/
def escapeByte (c : Nat) : List Char :=
  if shouldEscape c then
    if c = 32 then ['+']
    else ['%', upperhex (c / 16), upperhex (c % 16)]
  else [Char.ofNat c]

/-- The bytes of a Go string: the UTF-8 encoding of the text. -/
def bytes (s : String) : List Nat :=
  (s.data.flatMap String.utf8EncodeChar).map UInt8.toNat

/-- The function `url.QueryEscape`. -/
def QueryEscape (s : String) : String :=
  String.mk ((bytes s).flatMap escapeByte)

/-- The function `ishex` of net/url. -/
def ishex (c : Nat) : Bool :=
  (48 ≤ c && c ≤ 57) || (97 ≤ c && c ≤ 102) || (65 ≤ c && c ≤ 70)

/-- The function `unhex` of net/url. -/
def unhex (c : Nat) : Nat :=
  if 48 ≤ c ∧ c ≤ 57 then c - 48
  else if 97 ≤ c ∧ c ≤ 102 then c - 97 + 10
  else if 65 ≤ c ∧ c ≤ 70 then c - 65 + 10
  else 0

/-- The decoding loop of `unescape(s, encodePath)` on bytes, with the number of
bytes still to skip: a percent sign (37) and two hex digits become the byte
they name and the two digits are skipped, every other byte stays.  A percent
sign that is not followed by two hex digits, which the escaped path of a
parsed URL never holds, stands for itself. -/
def unescapeFrom : Nat → List Nat → List Nat
  | _, [] => []
  | skip + 1, _ :: rest => unescapeFrom skip rest
  | 0, c :: rest =>
    if c = 37 then
      match rest with
      | a :: b :: _ =>
        if ishex a && ishex b then (16 * unhex a + unhex b) :: unescapeFrom 2 rest
        else 37 :: unescapeFrom 0 rest
      | _ => 37 :: unescapeFrom 0 rest
    else c :: unescapeFrom 0 rest

/-- The function `unescape(s, encodePath)` on bytes. -/
def unescapePath (s : List Nat) : List Nat :=
  unescapeFrom 0 s

/-- The field `u.Path` of Go: the bytes of the decoded path.  `setPath` keeps
it equal to the unescaped form of what `EscapedPath()` returns. -/
def URL.decodedPath (u : URL) : List Nat :=
  unescapePath (bytes u.Path)

/-- The order of Go strings (`<` on `string`, which `slices.Sort` uses): the
lexicographic order of their bytes, which on UTF-8 is that of the code
points. -/
def strLess : List Char → List Char → Bool
  | _, [] => false
  | [], _ :: _ => true
  | a :: as, b :: bs => a.toNat < b.toNat || (a == b && strLess as bs)

/-- The type `url.Values`: a map from key to values, as an association list. -/
abbrev Values := List (String × List String)

/-- The pairs `key=value` that `Encode` writes for one key. -/
def encodeKey (kv : String × List String) : List String :=
  kv.2.map (fun v => QueryEscape kv.1 ++ "=" ++ QueryEscape v)

/-- The method `Values.Encode`: keys sorted, `key=value` pairs joined by `&`. -/
def Values.Encode (v : Values) : String :=
  "&".intercalate
    ((v.insertionSort (fun a b => strLess b.1.data a.1.data = false)).flatMap encodeKey)

/-! ## net/http/cookiejar -/

/-- The fields of `http.Cookie` that `login.go` sets or reads (`Domain`,
`Expires` and `MaxAge` stay at their zero value there). -/
structure Cookie where
  Name : String
  Value : String
  Path : String := ""
  Secure : Bool := false
  deriving DecidableEq, Repr

/-- The struct `entry` of the jar, without its time stamps.  `Path` holds the
bytes of the path. -/
structure entry where
  Name : String
  Value : String
  Domain : String
  Path : List Nat
  Secure : Bool
  HostOnly : Bool
  seqNum : Nat
  deriving DecidableEq, Repr

/-- The type `cookiejar.Jar`: its entries and the counter `nextSeqNum`. -/
structure Jar where
  entries : List entry := []
  nextSeqNum : Nat := 0
  deriving DecidableEq, Repr

/-- The slice `path[:i]` of a byte string for `i = strings.LastIndex(path, "/")`,
or `none` when `i = -1`.  The byte 47 is the slash. -/
def pathBeforeLastSlash (path : List Nat) : Option (List Nat) :=
  if path.contains 47 then
    some ((path.reverse.dropWhile (fun c => c != 47)).reverse).dropLast
  else none

/-- The function `defaultPath` of the jar (RFC 6265, 5.1.4), on the bytes of the
path. -/
def defaultPath (path : List Nat) : List Nat :=
  if path = [] ∨ path.head? ≠ some 47 then [47]
  else
    match pathBeforeLastSlash path with
    | none => [47]
    | some [] => [47]
    | some pre => pre

/-- The method `(*entry).pathMatch` (RFC 6265, 5.1.4). -/
def entry.pathMatch (e : entry) (requestPath : List Nat) : Bool :=
  if requestPath = e.Path then true
  else if e.Path.isPrefixOf requestPath then
    if e.Path.getLast? = some 47 then true
    else requestPath.get? e.Path.length == some 47
  else false

/-- The function `hasDotSuffix(s, suffix)`: `s` ends in "." followed by
`suffix`. -/
def hasDotSuffix (s suffix : String) : Bool :=
  ('.' :: suffix.data).isSuffixOf s.data

/-- The method `(*entry).domainMatch`. -/
def entry.domainMatch (e : entry) (host : String) : Bool :=
  if e.Domain = host then true else !e.HostOnly && hasDotSuffix host e.Domain

/-- The method `(*entry).shouldSend`. -/
def entry.shouldSend (e : entry) (https : Bool) (host : String) (path : List Nat) : Bool :=
  e.domainMatch host && e.pathMatch path && (https || !e.Secure)

/-- The method `(*Jar).newEntry` for a cookie without `Domain`, `MaxAge` and
`Expires`: a host-only session cookie, never a removal. -/
def newEntry (c : Cookie) (defPath : List Nat) (host : String) : entry :=
  { Name := c.Name
    Value := c.Value
    Domain := host
    Path := if c.Path = "" ∨ c.Path.data.head? ≠ some '/' then defPath else bytes c.Path
    Secure := c.Secure
    HostOnly := true
    seqNum := 0 }

/-- Whether two entries have the same `id()`, the text Domain;Path;Name. -/
def entry.sameId (a b : entry) : Bool :=
  a.Domain == b.Domain && a.Path == b.Path && a.Name == b.Name

/-- The body of the loop of `setCookies` for one entry: an entry with the same
id is replaced and keeps its sequence number, a new one takes the next. -/
def Jar.store (j : Jar) (e : entry) : Jar :=
  match j.entries.find? (fun old => old.sameId e) with
  | some old =>
    { entries := j.entries.map
        (fun x => if x.sameId e then { e with seqNum := old.seqNum } else x)
      nextSeqNum := j.nextSeqNum }
  | none =>
    { entries := j.entries ++ [{ e with seqNum := j.nextSeqNum }]
      nextSeqNum := j.nextSeqNum + 1 }

/-- The order in which `cookies` sorts the selected entries: longer paths
first, then older entries first. -/
def entry.before (a b : entry) : Bool :=
  if a.Path.length ≠ b.Path.length then decide (a.Path.length > b.Path.length)
  else decide (a.seqNum ≤ b.seqNum)

/-! ## the environment -/

/-- The type `http.Response`: the status code is all `login.go` reads. -/
structure Response where
  StatusCode : Int
  deriving DecidableEq, Repr

/-- A request as the client hands it to the transport: method, URL text, content
type, body, and the value of the Cookie header, empty when there is none. -/
structure Request where
  Method : String
  URL : String
  ContentType : String := ""
  Body : String := ""
  Cookie : String := ""
  deriving DecidableEq, Repr

/-- The function `sanitizeCookieName`: line feed and carriage return are
replaced by a hyphen. -/
def sanitizeCookieName (n : String) : String :=
  String.mk (n.data.map (fun c => if c.toNat = 10 ∨ c.toNat = 13 then '-' else c))

/-- The function `validCookieValueByte`: a byte from 0x20 to 0x7e other than the
double quote (34), the semicolon (59) and the backslash (92). -/
def validCookieValueByte (b : Nat) : Bool :=
  32 ≤ b && b < 127 && b != 34 && b != 59 && b != 92

/-- The function `sanitizeCookieValue(v, false)`: the invalid bytes are dropped,
and what is left is put in double quotes when it holds a space or a comma.
A character outside ASCII is encoded by bytes from 0x80 on, all of them
invalid, so dropping bytes drops whole characters. -/
def sanitizeCookieValue (v : String) : String :=
  let kept := v.data.filter (fun c => validCookieValueByte c.toNat)
  if kept = [] then ""
  else if kept.contains ' ' || kept.contains ',' then
    String.mk (Char.ofNat 34 :: kept ++ [Char.ofNat 34])
  else String.mk kept

/-- The method `(*Request).AddCookie(c)` on the value of the Cookie header: the
sanitised name, an equals sign and the sanitised value, after a semicolon and
a space when the header already holds a cookie. -/
def AddCookie (header : String) (c : Cookie) : String :=
  let s := sanitizeCookieName c.Name ++ "=" ++ sanitizeCookieValue c.Value
  if header ≠ "" then header ++ "; " ++ s else s

/-- The library calls whose result is left open.  `urlParse` is `url.Parse`,
`canonicalHost` the jar's host canonicalisation (port stripped, lower case,
IDNA), `roundTrip` everything the client does with a prepared request: the
exchange with the server in state `w`, following redirects, and storing the
cookies it receives in the jar; it answers with the final response and the
jar, or with a transport error. -/
structure Env (σ : Type) where
  urlParse : String → Except String URL
  canonicalHost : String → Except String String
  roundTrip : σ → Jar → Request → σ × Except String (Response × Jar)

variable {σ : Type}

/-- The method `(*URL).Parse(ref)`: parse the reference, then resolve it. -/
def URL.Parse (env : Env σ) (u : URL) (ref : String) : Except Error URL :=
  match env.urlParse ref with
  | .error e => .error (.lib e)
  | .ok refURL => .ok (u.ResolveReference refURL)

/-- The method `(*URL).String` (the host and the fragment are written as they
are, like the path). -/
def URL.String (u : URL) : String :=
  let buf := if u.Scheme ≠ "" then u.Scheme ++ ":" else ""
  let buf :=
    if u.Opaque ≠ "" then buf ++ u.Opaque
    else
      let buf :=
        if u.Scheme ≠ "" ∨ u.Host ≠ "" ∨ u.User ≠ none then
          let buf := if u.Host ≠ "" ∨ u.Path ≠ "" ∨ u.User ≠ none then buf ++ "//" else buf
          let buf := match u.User with
            | some ui => buf ++ ui ++ "@"
            | none => buf
          if u.Host ≠ "" then buf ++ u.Host else buf
        else buf
      let buf :=
        if u.Path ≠ "" ∧ u.Path.data.head? ≠ some '/' ∧ u.Host ≠ "" then buf ++ "/" else buf
      let buf :=
        if buf = "" ∧ ((splitSlash u.Path.data).head?.getD []).contains ':' then buf ++ "./"
        else buf
      buf ++ u.Path
  let buf := if u.ForceQuery = true ∨ u.RawQuery ≠ "" then buf ++ "?" ++ u.RawQuery else buf
  if u.Fragment ≠ "" then buf ++ "#" ++ u.Fragment else buf

/-- The function `cookiejar.New(nil)`: an empty jar; its error is always nil. -/
def Jar.New : Jar := {}

/-- The method `(*Jar).SetCookies`. -/
def Jar.SetCookies (env : Env σ) (j : Jar) (u : URL) (cookies : List Cookie) : Jar :=
  if cookies.length = 0 then j
  else if u.Scheme ≠ "http" ∧ u.Scheme ≠ "https" then j
  else
    match env.canonicalHost u.Host with
    | .error _ => j
    | .ok host =>
      let defPath := defaultPath u.decodedPath
      cookies.foldl (fun j c => j.store (newEntry c defPath host)) j

/-- The method `(*Jar).Cookies`: the entries to send to `u`, sorted, as cookies
carrying name and value only. -/
def Jar.Cookies (env : Env σ) (j : Jar) (u : URL) : List Cookie :=
  if u.Scheme ≠ "http" ∧ u.Scheme ≠ "https" then []
  else
    match env.canonicalHost u.Host with
    | .error _ => []
    | .ok host =>
      let https := u.Scheme == "https"
      let path := if u.decodedPath = [] then [47] else u.decodedPath
      let selected := j.entries.filter (fun e => e.shouldSend https host path)
      (selected.insertionSort (fun a b => a.before b = true)).map
        (fun e => { Name := e.Name, Value := e.Value })

/-! ## net/http client -/

/-- The result of a client call: the server state, the requests handed to the
transport, and the response with the jar as the call leaves it, or the error. -/
abbrev Exchange (σ : Type) := σ × List Request × Except Error (Response × Jar)

/-- The common part of `Client.Get` and `Client.PostForm`: `http.NewRequest`
parses the URL text (on failure nothing is sent), the client adds the
cookies the jar holds for the request URL with `AddCookie`, and the request
goes out. -/
def Client.send (env : Env σ) (w : σ) (jar : Jar)
    (method url contentType body : String) : Exchange σ :=
  match env.urlParse url with
  | .error e => (w, [], .error (.lib e))
  | .ok reqURL =>
    let req : Request :=
      { Method := method, URL := url, ContentType := contentType, Body := body
        Cookie := (jar.Cookies env reqURL).foldl AddCookie "" }
    match env.roundTrip w jar req with
    | (w1, .error e) => (w1, [req], .error (.lib e))
    | (w1, .ok r) => (w1, [req], .ok r)

/-- The method `(*Client).Get(url)` of a client with jar `jar`. -/
def Client.Get (env : Env σ) (w : σ) (jar : Jar) (url : String) : Exchange σ :=
  Client.send env w jar "GET" url "" ""

/-- The method `(*Client).PostForm(url, data)`: a POST of `data.Encode()` with
content type application/x-www-form-urlencoded. -/
def Client.PostForm (env : Env σ) (w : σ) (jar : Jar) (url : String) (data : Values) :
    Exchange σ :=
  Client.send env w jar "POST" url "application/x-www-form-urlencoded" data.Encode

/-! ## login.go -/

/-- The struct `Session`: `ID` is the value of the session cookie and `Key` its
name. -/
structure Session where
  ID : String
  Key : String
  deriving DecidableEq, Repr

/-- The loop of lines 74 to 78: the first cookie named JSESSIONID becomes the
session. -/
def scanCookies : List Cookie → Option Session
  | [] => none
  | c :: cs => if c.Name = "JSESSIONID" then some { ID := c.Value, Key := c.Name }
               else scanCookies cs

/-- The function `Login(endpoint, username, password)`, against a server in
state `w`.  The result is the pair the function returns, with the requests the
client issued on the way.  The deferred `resp.Body.Close()` calls have no part
in either and are left out. -/
def Login (env : Env σ) (w : σ) (endpoint username password : String) :
    Except Error Session × List Request :=
  match env.urlParse endpoint with
  | .error e => (.error (.lib e), [])
  | .ok u =>
  -- Create http client.
  let jar := Jar.New
  -- Get cookie for login.
  match u.Parse env "drools-wb" with
  | .error e => (.error e, [])
  | .ok u2 =>
  match Client.Get env w jar u2.String with
  | (_, t1, .error e) => (.error e, t1)
  | (w1, t1, .ok (resp, jar1)) =>
  if resp.StatusCode ≠ 200 then (.error (.unexpectedStatus resp.StatusCode), t1)
  else
  -- Login to get session ID.
  match u.Parse env "drools-wb/j_security_check" with
  | .error e => (.error e, t1)
  | .ok u3 =>
  match Client.PostForm env w1 jar1 u3.String
      [("j_username", [username]), ("j_password", [password])] with
  | (_, t2, .error e) => (.error e, t1 ++ t2)
  | (_, t2, .ok (resp2, jar2)) =>
  if resp2.StatusCode ≠ 200 then (.error (.unexpectedStatus resp2.StatusCode), t1 ++ t2)
  else
  match u.Parse env "drools-wb" with
  | .error e => (.error e, t1 ++ t2)
  | .ok u4 =>
  let cs := jar2.Cookies env u4
  if cs.length = 0 then (.error (.new "no cookies for endpoint"), t1 ++ t2)
  else
    match scanCookies cs with
    | some session => (.ok session, t1 ++ t2)
    | none => (.error (.new "session not found"), t1 ++ t2)

/-- The function `Logout(endpoint, session)` for a non-nil session.  The result
is the error returned (`none` for nil), the jar the client was given, and the
requests the client issued. -/
def Logout (env : Env σ) (w : σ) (endpoint : String) (session : Session) :
    Option Error × Jar × List Request :=
  match env.urlParse endpoint with
  | .error e => (some (.lib e), Jar.New, [])
  | .ok u =>
  match u.Parse env "drools-wb" with
  | .error e => (some e, Jar.New, [])
  | .ok u2 =>
  -- Create http client.
  let jar := Jar.New.SetCookies env u2
    [{ Name := session.Key, Value := session.ID, Path := "drools-wb" }]
  -- Logout.
  match u.Parse env "drools-wb/logout.jsp" with
  | .error e => (some e, jar, [])
  | .ok u3 =>
  match Client.Get env w jar u3.String with
  | (_, t, .error e) => (some e, jar, t)
  | (_, t, .ok (resp, _)) =>
  if resp.StatusCode ≠ 200 then (some (.unexpectedStatus resp.StatusCode), jar, t)
  else (none, jar, t)

/-! ## the tunnel: the handler of ProxyDroosWB -/

/-- The two sockets of the handler: `d`, the backend connection from `net.Dial`,
and `nc`, the client connection from `Hijack`. -/
inductive Conn where
  | d
  | nc
  deriving DecidableEq, Repr

/-- The calls the handler makes, in the order it makes them. -/
inductive Effect where
  /-- the call net.Dial(network, address) -/
  | dial (network address : String)
  /-- the call http.Error(w, msg, code) -/
  | httpError (msg : String) (code : Nat)
  /-- the call log.Printf, with the formatted text -/
  | logPrintf (text : String)
  /-- the call hj.Hijack() -/
  | hijack
  /-- the call r.Write(dst) -/
  | requestWrite (dst : Conn)
  /-- the statement make(chan error, cap) -/
  | makeChan (cap : Nat)
  /-- the statement go cp(dst, src) -/
  | go (dst src : Conn)
  /-- the statement <-errc -/
  | recv
  /-- the call c.Close() -/
  | close (c : Conn)
  deriving DecidableEq, Repr

/-- What the calls of the handler answer: the error of `net.Dial` (`none` for
nil), whether `w` is an `http.Hijacker`, the error of `Hijack`, and the error
of `r.Write(d)`. -/
structure Outcomes where
  dial : Option String := none
  hijacker : Bool := true
  hijack : Option String := none
  write : Option String := none
  deriving DecidableEq, Repr

/-- The handler function of `ProxyDroosWB(proxyURL, targetURL)`, lines 194 to
228, as the sequence of calls it makes until it returns.  The two deferred
calls run when the function returns, last deferred first.  The statement
`<-errc` returns once one of the two copy loops has sent; `Relay` below
describes that part. -/
def ProxyDroosWB.handler (targetURL : String) (o : Outcomes) : List Effect :=
  .dial "tcp" targetURL ::
  match o.dial with
  | some err =>
    [.httpError "Error contacting backend server." 500,
     .logPrintf ("Error dialing websocket backend " ++ targetURL ++ ": " ++ err)]
  | none =>
    if o.hijacker = false then [.httpError "Not a hijacker?" 500]
    else
      .hijack ::
      match o.hijack with
      | some err => [.logPrintf ("Hijack error: " ++ err)]
      | none =>
        -- defer nc.Close(); defer d.Close()
        .requestWrite .d ::
        match o.write with
        | some err =>
          [.logPrintf ("Error copying request to target: " ++ err), .close .d, .close .nc]
        | none =>
          [.makeChan 2, .go .d .nc, .go .nc .d, .recv, .close .d, .close .nc]

/-- The sockets the handler holds: `d` once the dial succeeded, `nc` once the
hijack succeeded. -/
def acquired (o : Outcomes) : List Conn :=
  match o.dial with
  | some _ => []
  | none => if o.hijacker = true ∧ o.hijack = none then [.d, .nc] else [.d]

/-- The position of a copy loop `cp`: inside `io.Copy`, at the send
`errc <- err`, or returned. -/
inductive LoopPc where
  | copying
  | sending
  | done
  deriving DecidableEq, Repr

/-- The position of the handler from line 227 on: at the receive `<-errc`, at
the deferred `d.Close()`, at the deferred `nc.Close()`, or returned. -/
inductive HandlerPc where
  | receiving
  | closingD
  | closingNC
  | returned
  deriving DecidableEq, Repr

/-- The state of the relay once both goroutines are started: the channel `errc`
(capacity and number of buffered values), the position of the loop
`cp(d, nc)`, client to backend, and of the loop `cp(nc, d)`, backend to
client, the position of the handler, the number of values it received, and
which sockets are closed. -/
structure Relay where
  cap : Nat
  buf : Nat
  up : LoopPc
  down : LoopPc
  h : HandlerPc
  received : Nat
  dClosed : Bool
  ncClosed : Bool
  deriving DecidableEq, Repr

/-- The state after lines 220 to 226: `make(chan error, 2)` and the two `go`
statements. -/
def Relay.init : Relay :=
  { cap := 2, buf := 0, up := .copying, down := .copying, h := .receiving,
    received := 0, dClosed := false, ncClosed := false }

/-- The atomic steps of the three goroutines. -/
inductive Action where
  /-- the call io.Copy of cp(d, nc) returns, at end of stream or on an error -/
  | upEnds
  /-- the send errc <- err of cp(d, nc) -/
  | upSends
  /-- the call io.Copy of cp(nc, d) returns -/
  | downEnds
  /-- the send errc <- err of cp(nc, d) -/
  | downSends
  /-- the receive <-errc of the handler -/
  | recv
  /-- the deferred d.Close() -/
  | closeD
  /-- the deferred nc.Close() -/
  | closeNC
  deriving DecidableEq, Repr

/-- One step, or `none` when the goroutine is not at that statement or is
blocked there: a send on the buffered channel blocks while the buffer is
full, the receive blocks while it is empty. -/
def Relay.step (s : Relay) : Action → Option Relay
  | .upEnds => if s.up = .copying then some { s with up := .sending } else none
  | .upSends =>
    if s.up = .sending ∧ s.buf < s.cap then some { s with up := .done, buf := s.buf + 1 }
    else none
  | .downEnds => if s.down = .copying then some { s with down := .sending } else none
  | .downSends =>
    if s.down = .sending ∧ s.buf < s.cap then
      some { s with down := .done, buf := s.buf + 1 }
    else none
  | .recv =>
    if s.h = .receiving ∧ 0 < s.buf then
      some { s with h := .closingD, buf := s.buf - 1, received := s.received + 1 }
    else none
  | .closeD => if s.h = .closingD then some { s with h := .closingNC, dClosed := true } else none
  | .closeNC =>
    if s.h = .closingNC then some { s with h := .returned, ncClosed := true } else none

/-- The state in which the handler has returned, the client-to-backend loop is
done and the backend-to-client loop has come to its send. -/
def Relay.tornDown : Relay :=
  { cap := 2, buf := 0, up := .done, down := .sending, h := .returned,
    received := 1, dClosed := true, ncClosed := true }

/-- The state a schedule leads to, `none` when one of its steps cannot be
taken. -/
def Relay.run (s : Relay) : List Action → Option Relay
  | [] => some s
  | a :: as => (s.step a).bind (fun s1 => s1.run as)

/-- The invariant of the relay: the channel has capacity 2; every loop that is
done has sent one value, which is buffered or received; the handler received
one value exactly when it is past the receive; and the sockets are closed in
step with the position of the handler. -/
def Relay.Inv (s : Relay) : Prop :=
  s.cap = 2
    ∧ (if s.up = .done then 1 else 0) + (if s.down = .done then 1 else 0) = s.buf + s.received
    ∧ s.received = (if s.h = .receiving then 0 else 1)
    ∧ (s.dClosed = true ↔ (s.h = .closingNC ∨ s.h = .returned))
    ∧ (s.ncClosed = true ↔ s.h = .returned)

/-- The endpoint `u` with its path resolved against the reference `ref`: the
scheme, userinfo and host of `u`, the path `resolvePath(u.Path, ref)`, no
query and no fragment. -/
def resolved (u : URL) (ref : String) : URL :=
  { Scheme := u.Scheme, User := u.User, Host := u.Host, Path := resolvePath u.Path ref }

/-- The request `Logout` issues for an endpoint `u` served over HTTP: a GET of
the logout page whose Cookie header holds the cookie of the session, as
`AddCookie` writes it, and no other. -/
def logoutRequest (u : URL) (session : Session) : Request :=
  { Method := "GET", URL := (resolved u "drools-wb/logout.jsp").String
    Cookie := sanitizeCookieName session.Key ++ "=" ++ sanitizeCookieValue session.ID }

/-- The names `sanitizeCookieName` leaves as they are: those without line feed
and carriage return. -/
def plainCookieName (n : String) : Prop :=
  ∀ c ∈ n.data, c.toNat ≠ 10 ∧ c.toNat ≠ 13

/-- The values `sanitizeCookieValue` leaves as they are: those made of valid
bytes only, without space and comma. -/
def plainCookieValue (v : String) : Prop :=
  ∀ c ∈ v.data, validCookieValueByte c.toNat = true ∧ c ≠ ' ' ∧ c ≠ ','

/-! ## a scripted environment, for evaluation on concrete inputs -/

/-- A parser given by a finite table of texts and their parse, every other
text being an error. -/
def tableParse (t : List (String × URL)) (s : String) : Except String URL :=
  match t.lookup s with
  | some u => .ok u
  | none => .error "parse error"

/-- The value of `url.Parse` on the texts the examples use. -/
def demoTable : List (String × URL) :=
  [ ("http://h", { Scheme := "http", Host := "h" }),
    ("http://h/a", { Scheme := "http", Host := "h", Path := "/a" }),
    ("ftp://h", { Scheme := "ftp", Host := "h" }),
    ("drools-wb", { Path := "drools-wb" }),
    ("drools-wb/j_security_check", { Path := "drools-wb/j_security_check" }),
    ("drools-wb/logout.jsp", { Path := "drools-wb/logout.jsp" }),
    ("http://h/drools-wb", { Scheme := "http", Host := "h", Path := "/drools-wb" }),
    ("http://h/drools-wb/j_security_check",
      { Scheme := "http", Host := "h", Path := "/drools-wb/j_security_check" }),
    ("http://h/drools-wb/logout.jsp",
      { Scheme := "http", Host := "h", Path := "/drools-wb/logout.jsp" }),
    ("ftp://h/drools-wb", { Scheme := "ftp", Host := "h", Path := "/drools-wb" }),
    ("ftp://h/drools-wb/logout.jsp",
      { Scheme := "ftp", Host := "h", Path := "/drools-wb/logout.jsp" }) ]

/-- A server that answers the n-th request with the n-th entry of a script: a
status code and the jar as the exchange leaves it.  Once the script is used up
the connection is refused. -/
def scripted : Env (List (Int × Jar)) where
  urlParse := tableParse demoTable
  canonicalHost := fun h => .ok h
  roundTrip := fun w _ _ =>
    match w with
    | [] => ([], .error "connection refused")
    | (code, jar) :: rest => (rest, .ok ({ StatusCode := code }, jar))

/-- A jar holding one host-only cookie for host h and path /. -/
def jarWith (name value : String) : Jar :=
  { entries := [{ Name := name, Value := value, Domain := "h", Path := [47],
                  Secure := false, HostOnly := true, seqNum := 0 }]
    nextSeqNum := 1 }

/-! ## lemmas on path resolution -/

/-- A path has at least one segment. -/
theorem splitSlash_ne_nil (s : List Char) : splitSlash s ≠ [] := by
  cases s with
  | nil => simp [splitSlash]
  | cons c cs =>
    simp only [splitSlash]
    split
    · simp
    · split <;> simp

/-- Splitting at a slash: the segments before it, then the segments after it. -/
theorem splitSlash_append_slash (a b : List Char) :
    splitSlash (a ++ '/' :: b) = splitSlash a ++ splitSlash b := by
  induction a with
  | nil =>
    have hb := splitSlash_ne_nil b
    simp only [List.nil_append, splitSlash]
    cases h : splitSlash b with
    | nil => exact absurd h hb
    | cons seg rest => simp
  | cons c a ih =>
    have ha := splitSlash_ne_nil a
    rw [List.cons_append, splitSlash, ih]
    conv_rhs => rw [splitSlash]
    cases h : splitSlash a with
    | nil => exact absurd h ha
    | cons seg rest =>
      simp only [List.cons_append]
      split_ifs <;> rfl

/-- The part up to the last slash is empty or ends in a slash. -/
theorem uptoLastSlash_cases (s : List Char) :
    uptoLastSlash s = [] ∨ ∃ p, uptoLastSlash s = p ++ ['/'] := by
  unfold uptoLastSlash
  cases h : s.reverse.dropWhile (fun c => c != '/') with
  | nil => left; rfl
  | cons x xs =>
    right
    have hx := List.head_dropWhile_not (fun c => c != '/') s.reverse (by simp [h])
    simp only [h, List.head_cons] at hx
    have hx' : x = '/' := by simpa using hx
    exact ⟨xs.reverse, by simp [hx']⟩

/-- The part up to the last slash, when the last segment is known. -/
theorem uptoLastSlash_append (a seg : List Char) (hseg : '/' ∉ seg) :
    uptoLastSlash (a ++ '/' :: seg) = a ++ ['/'] := by
  unfold uptoLastSlash
  have h1 : (a ++ '/' :: seg).reverse = seg.reverse ++ '/' :: a.reverse := by simp
  rw [h1, List.dropWhile_append_of_pos]
  · simp [List.dropWhile]
  · intro c hc
    have : c ≠ '/' := fun h => hseg (by simpa [h] using hc)
    simpa using this

/-- While `first` is set nothing has been written: one turn keeps this. -/
theorem resolveStep_first (st : List Char × Bool) (elem : List Char)
    (h : st.2 = true → st.1 = []) :
    (resolveStep st elem).2 = true → (resolveStep st elem).1 = [] := by
  unfold resolveStep
  split_ifs with h1 h2
  · simp
  · cases hb : beforeLastSlash st.1 with
    | none => simp
    | some pre =>
      simp only
      intro h2
      have := h h2
      rw [this] at hb
      simp [beforeLastSlash] at hb
  all_goals
    intro hc
    exact absurd hc (by simp)

/-- While `first` is set nothing has been written: the loop keeps this. -/
theorem foldl_resolveStep_first (L : List (List Char)) :
    ∀ st : List Char × Bool, (st.2 = true → st.1 = []) →
      (L.foldl resolveStep st).2 = true → (L.foldl resolveStep st).1 = [] := by
  induction L with
  | nil => intro st h; simpa using h
  | cons e L ih =>
    intro st h
    simp only [List.foldl_cons]
    exact ih _ (resolveStep_first st e h)


/-- The application root and the logout page resolve below the same directory:
for some `q`, the one to `q/drools-wb` and the other to
`q/drools-wb/logout.jsp`. -/
theorem resolvePath_shape (base : String) :
    ∃ q : List Char, (q ++ ['/']).head? = some '/' ∧
      (resolvePath base "drools-wb").data = q ++ '/' :: "drools-wb".data ∧
      (resolvePath base "drools-wb/logout.jsp").data
        = q ++ '/' :: "drools-wb/logout.jsp".data := by
  -- the segments before the reference
  obtain ⟨L, hL2, hL3⟩ : ∃ L : List (List Char),
      splitSlash (uptoLastSlash base.data ++ "drools-wb".data) = L ++ ["drools-wb".data] ∧
      splitSlash (uptoLastSlash base.data ++ "drools-wb/logout.jsp".data)
        = L ++ ["drools-wb".data, "logout.jsp".data] := by
    rcases uptoLastSlash_cases base.data with h | ⟨p, h⟩
    · exact ⟨[], by rw [h]; decide, by rw [h]; decide⟩
    · refine ⟨splitSlash p, ?_, ?_⟩
      · rw [h, List.append_assoc, List.singleton_append, splitSlash_append_slash]
        congr 1
      · rw [h, List.append_assoc, List.singleton_append, splitSlash_append_slash]
        congr 1
  have hinv := foldl_resolveStep_first L ([], true) (fun _ => rfl)
  generalize hst : L.foldl resolveStep ([], true) = st at hinv
  obtain ⟨body, first⟩ := st
  simp only at hinv
  have h2 : (resolvePath base "drools-wb").data =
      (if ((if first then body else body ++ ['/']) ++ "drools-wb".data).head? = some '/'
        then (if first then body else body ++ ['/']) ++ "drools-wb".data
        else '/' :: ((if first then body else body ++ ['/']) ++ "drools-wb".data)) := by
    simp [resolvePath, hL2, List.foldl_append, hst, resolveStep]
  have h3 : (resolvePath base "drools-wb/logout.jsp").data =
      (if ((if first then body else body ++ ['/']) ++ "drools-wb".data).head? = some '/'
        then (if first then body else body ++ ['/']) ++ "drools-wb/logout.jsp".data
        else '/' :: ((if first then body else body ++ ['/']) ++ "drools-wb/logout.jsp".data)) := by
    simp [resolvePath, hL3, List.foldl_append, hst, resolveStep]
  rw [h2, h3]
  cases first with
  | true =>
    have hb : body = [] := hinv rfl
    subst hb
    exact ⟨[], rfl, by decide, by decide⟩
  | false =>
    have hhead : ((body ++ ['/']) ++ "drools-wb".data).head? = (body ++ ['/']).head? := by
      cases body <;> rfl
    simp only [Bool.false_eq_true, if_false, hhead]
    by_cases hq : (body ++ ['/']).head? = some '/'
    · refine ⟨body, hq, ?_, ?_⟩ <;> rw [if_pos hq] <;> simp
    · refine ⟨'/' :: body, rfl, ?_, ?_⟩ <;> rw [if_neg hq] <;> simp

/-- Resolving a reference that is only a non-empty path. -/
theorem resolveReference_path (u : URL) (ref : String) (href : ref ≠ "") :
    u.ResolveReference { Path := ref } = resolved u ref := by
  simp [URL.ResolveReference, resolved, href]

/-- The method `Parse` on a reference that `url.Parse` reads as a bare path. -/
theorem parse_path (env : Env σ) (u : URL) (ref : String) (href : ref ≠ "")
    (h : env.urlParse ref = .ok { Path := ref }) :
    u.Parse env ref = .ok (resolved u ref) := by
  simp [URL.Parse, h, resolveReference_path u ref href]

/-- The text of a URL with a host whose path is replaced by a rooted path: the
text of the URL without path, query and fragment, followed by the path. -/
theorem String_rooted (u : URL) (p : List Char) (h1 : u.Opaque = "") (h2 : u.Host ≠ "")
    (h3 : u.Path = "") (h4 : u.ForceQuery = false) (h5 : u.RawQuery = "")
    (h6 : u.Fragment = "") :
    URL.String { Scheme := u.Scheme, User := u.User, Host := u.Host, Path := String.mk ('/' :: p) }
      = u.String ++ String.mk ('/' :: p) := by
  obtain ⟨scheme, opq, user, host, path, fq, rq, frag⟩ := u
  simp only at h1 h2 h3 h4 h5 h6
  subst h1 h3 h4 h5 h6
  have hs : ((splitSlash ('/' :: p)).head?.getD []) = [] := by
    have := splitSlash_ne_nil p
    rw [splitSlash]
    cases h : splitSlash p with
    | nil => exact absurd h this
    | cons seg rest => simp
  have hp : (String.mk ('/' :: p)) ≠ "" := by
    intro h
    have := congrArg String.data h
    simp at this
  have hs0 : ((splitSlash []).head?.getD []) = [] := rfl
  cases user <;> simp [URL.String, hs, hs0, h2, hp, String.append_assoc]

/-! ## lemmas on the client -/

/-- A client call that yields a response handed exactly one request to the
transport: the one built from its arguments and the jar. -/
theorem Client.send_ok {env : Env σ} {w w1 : σ} {jar : Jar}
    {method url contentType body : String} {t : List Request} {r : Response × Jar}
    (h : Client.send env w jar method url contentType body = (w1, t, .ok r)) :
    ∃ reqURL, env.urlParse url = .ok reqURL ∧
      t = [{ Method := method, URL := url, ContentType := contentType, Body := body
             Cookie := (jar.Cookies env reqURL).foldl AddCookie "" }] := by
  unfold Client.send at h
  cases hp : env.urlParse url with
  | error e => simp [hp] at h
  | ok reqURL =>
    refine ⟨reqURL, rfl, ?_⟩
    simp only [hp] at h
    split at h
    · simp at h
    · simp only [Prod.mk.injEq] at h
      exact h.2.1.symm

/-- The loop of `Login` finds the first cookie named JSESSIONID. -/
theorem scanCookies_eq_find (cs : List Cookie) :
    scanCookies cs =
      (cs.find? (fun c => c.Name == "JSESSIONID")).map
        (fun c => { ID := c.Value, Key := c.Name }) := by
  induction cs with
  | nil => rfl
  | cons c cs ih =>
    by_cases hc : c.Name = "JSESSIONID"
    · simp [scanCookies, hc]
    · simp [scanCookies, hc, ih]

/-- Once `http.NewRequest` accepts the URL text, the client hands exactly one
request to the transport, whatever the transport answers. -/
theorem Client.send_trace {env : Env σ} (w : σ) (jar : Jar)
    (method url contentType body : String) {reqURL : URL}
    (hp : env.urlParse url = .ok reqURL) :
    (Client.send env w jar method url contentType body).2.1 =
      [{ Method := method, URL := url, ContentType := contentType, Body := body
         Cookie := (jar.Cookies env reqURL).foldl AddCookie "" }] := by
  unfold Client.send
  simp only [hp]
  split <;> rfl

/-- The body `Encode` writes for the form of `Login`: the keys are sorted, so
the password comes first. -/
theorem Values.Encode_login (username password : String) :
    Values.Encode [("j_username", [username]), ("j_password", [password])]
      = "j_password=" ++ QueryEscape password ++ "&j_username=" ++ QueryEscape username := by
  have h1 : QueryEscape "j_username" = "j_username" := by decide
  have h2 : QueryEscape "j_password" = "j_password" := by decide
  have h3 : strLess "j_username".data "j_password".data = false := by decide
  have h4 : strLess "j_password".data "j_username".data = true := by decide
  simp [Values.Encode, List.insertionSort, List.orderedInsert, encodeKey, h1, h2, h3, h4,
    String.intercalate, String.intercalate.go]
  apply String.ext
  simp

set_option maxRecDepth 100000 in
/-- No byte is escaped to text containing a field or key separator. -/
theorem escapeByte_sep : ∀ c < 256, '&' ∉ escapeByte c ∧ '=' ∉ escapeByte c := by
  decide

/-- Every byte of a string is below 256. -/
theorem bytes_lt (s : String) : ∀ b ∈ bytes s, b < 256 := by
  intro b hb
  simp only [bytes, List.mem_map] at hb
  obtain ⟨x, _, rfl⟩ := hb
  exact x.toNat_lt

/-- An escaped value contains neither `&` nor `=`. -/
theorem QueryEscape_sep (s : String) :
    '&' ∉ (QueryEscape s).data ∧ '=' ∉ (QueryEscape s).data := by
  simp only [QueryEscape, List.mem_flatMap, not_exists, not_and]
  constructor
  · intro b hb
    exact (escapeByte_sep b (bytes_lt s b hb)).1
  · intro b hb
    exact (escapeByte_sep b (bytes_lt s b hb)).2

/-- The requests of `Login` once the pre-flight GET answered 200 and the login URL
is accepted by `http.NewRequest`: those of the pre-flight call, then the login
POST. -/
theorem Login_requests (env : Env σ) (w w1 : σ) (endpoint username password : String)
    (u u2 u3 reqURL : URL) (t1 : List Request) (resp1 : Response) (jar1 : Jar)
    (hu : env.urlParse endpoint = .ok u)
    (h2 : u.Parse env "drools-wb" = .ok u2)
    (hget : Client.Get env w Jar.New u2.String = (w1, t1, .ok (resp1, jar1)))
    (hs1 : resp1.StatusCode = 200)
    (h3 : u.Parse env "drools-wb/j_security_check" = .ok u3)
    (hp : env.urlParse u3.String = .ok reqURL) :
    (Login env w endpoint username password).2 = t1 ++
      [{ Method := "POST", URL := u3.String
         ContentType := "application/x-www-form-urlencoded"
         Body := Values.Encode [("j_username", [username]), ("j_password", [password])]
         Cookie := (jar1.Cookies env reqURL).foldl AddCookie "" }] := by
  have ht := Client.send_trace w1 jar1 "POST" u3.String
    "application/x-www-form-urlencoded"
    (Values.Encode [("j_username", [username]), ("j_password", [password])]) hp
  simp only [Login, hu, h2, hget, hs1, h3, Client.PostForm]
  generalize Client.send env w1 jar1 "POST" u3.String "application/x-www-form-urlencoded"
    (Values.Encode [("j_username", [username]), ("j_password", [password])]) = ex at ht ⊢
  obtain ⟨w2, t2, r⟩ := ex
  simp only at ht
  subst ht
  cases r with
  | error e => simp
  | ok r =>
    obtain ⟨resp2, jar2⟩ := r
    simp only [ne_eq, not_true_eq_false, if_false]
    split_ifs <;> first | rfl | (split <;> rfl)

/-- The jar and the requests of `Logout` once the logout URL is accepted by
`http.NewRequest`: the jar is the fresh jar after `SetCookies`, and the one
request is the GET of the logout URL with the cookies that jar holds for
it. -/
theorem Logout_requests (env : Env σ) (w : σ) (endpoint : String) (session : Session)
    (u u2 u3 reqURL : URL)
    (hu : env.urlParse endpoint = .ok u)
    (h2 : u.Parse env "drools-wb" = .ok u2)
    (h3 : u.Parse env "drools-wb/logout.jsp" = .ok u3)
    (hp : env.urlParse u3.String = .ok reqURL) :
    (Logout env w endpoint session).2 =
      (Jar.New.SetCookies env u2
          [{ Name := session.Key, Value := session.ID, Path := "drools-wb" }],
       [{ Method := "GET", URL := u3.String
          Cookie := ((Jar.New.SetCookies env u2
              [{ Name := session.Key, Value := session.ID, Path := "drools-wb" }]).Cookies
            env reqURL).foldl AddCookie "" }]) := by
  have ht := Client.send_trace w (Jar.New.SetCookies env u2
    [{ Name := session.Key, Value := session.ID, Path := "drools-wb" }])
    "GET" u3.String "" "" hp
  simp only [Logout, hu, h2, h3, Client.Get]
  generalize Client.send env w (Jar.New.SetCookies env u2
    [{ Name := session.Key, Value := session.ID, Path := "drools-wb" }])
    "GET" u3.String "" "" = ex at ht ⊢
  obtain ⟨w2, t2, r⟩ := ex
  simp only at ht
  subst ht
  cases r with
  | error e => rfl
  | ok r =>
    obtain ⟨resp2, jar2⟩ := r
    simp only
    split_ifs <;> rfl

/-! ## lemmas on decoding -/

/-- A byte to skip is skipped. -/
theorem unescapeFrom_skip (k c : Nat) (r : List Nat) :
    unescapeFrom (k + 1) (c :: r) = unescapeFrom k r := rfl

/-- A byte other than the percent sign stays. -/
theorem unescapeFrom_other (c : Nat) (r : List Nat) (hc : c ≠ 37) :
    unescapeFrom 0 (c :: r) = c :: unescapeFrom 0 r := by
  simp [unescapeFrom, hc]

/-- A percent sign followed by two bytes. -/
theorem unescapeFrom_pair (x y : Nat) (r : List Nat) :
    unescapeFrom 0 (37 :: x :: y :: r) =
      if (ishex x && ishex y) = true then
        (16 * unhex x + unhex y) :: unescapeFrom 2 (x :: y :: r)
      else 37 :: unescapeFrom 0 (x :: y :: r) := by
  simp [unescapeFrom]

/-- A percent sign followed by one byte. -/
theorem unescapeFrom_one (x : Nat) : unescapeFrom 0 [37, x] = 37 :: unescapeFrom 0 [x] := by
  simp [unescapeFrom]

/-- Decoding does not reach across a slash: no escape sequence contains one. -/
theorem unescapeFrom_slash (b : List Nat) : ∀ (a : List Nat) (k : Nat), k ≤ a.length →
    unescapeFrom k (a ++ 47 :: b) = unescapeFrom k a ++ 47 :: unescapeFrom 0 b := by
  intro a
  induction a with
  | nil =>
    intro k hk
    have : k = 0 := by simpa using hk
    subst this
    rw [List.nil_append, unescapeFrom_other 47 b (by decide)]
    rfl
  | cons c a ih =>
    intro k hk
    cases k with
    | succ k =>
      rw [List.cons_append, unescapeFrom_skip, unescapeFrom_skip]
      exact ih k (by simpa using hk)
    | zero =>
      by_cases hc : c = 37
      · subst hc
        match a, ih with
        | [], ih =>
          have h0 := ih 0 (by simp)
          rw [List.nil_append] at h0
          have e : unescapeFrom 0 (37 :: 47 :: b) = 37 :: unescapeFrom 0 (47 :: b) := by
            cases b with
            | nil => exact unescapeFrom_one 47
            | cons y r => rw [unescapeFrom_pair]; simp [ishex]
          simp only [List.cons_append, List.nil_append]
          rw [e, h0]
          rfl
        | [x], ih =>
          have h0 := ih 0 (by simp)
          simp only [List.cons_append, List.nil_append] at h0 ⊢
          rw [unescapeFrom_pair, unescapeFrom_one, h0]
          simp [ishex]
        | x :: y :: r, ih =>
          have h0 := ih 0 (by simp)
          have h2 := ih 2 (by simp)
          simp only [List.cons_append] at h0 h2 ⊢
          rw [unescapeFrom_pair, unescapeFrom_pair, h0, h2]
          split_ifs <;> rfl
      · rw [List.cons_append, unescapeFrom_other c _ hc, unescapeFrom_other c _ hc,
          ih 0 (by simp)]
        rfl

/-- Decoding a path up to a slash and after it. -/
theorem unescapePath_slash (q rest : List Char) :
    unescapePath (bytes (String.mk (q ++ '/' :: rest)))
      = unescapePath (bytes (String.mk q)) ++ 47 :: unescapePath (bytes (String.mk rest)) := by
  have hb : bytes (String.mk (q ++ '/' :: rest))
      = bytes (String.mk q) ++ 47 :: bytes (String.mk rest) := by
    simp only [bytes, List.flatMap_append, List.flatMap_cons, List.map_append]
    rfl
  rw [hb]
  exact unescapeFrom_slash _ _ 0 (Nat.zero_le _)

/-- The decoded paths of the application root and of the logout page: for some
byte string `d`, the one is `d/drools-wb` and the other
`d/drools-wb/logout.jsp`, and `d/` starts with a slash. -/
theorem decodedPath_shape (u : URL) :
    ∃ d : List Nat, (d ++ [47]).head? = some 47 ∧
      (resolved u "drools-wb").decodedPath = d ++ 47 :: bytes "drools-wb" ∧
      (resolved u "drools-wb/logout.jsp").decodedPath
        = d ++ 47 :: bytes "drools-wb/logout.jsp" := by
  obtain ⟨q, hq, h2, h3⟩ := resolvePath_shape u.Path
  have e2 : resolvePath u.Path "drools-wb" = String.mk (q ++ '/' :: "drools-wb".data) :=
    String.ext h2
  have e3 : resolvePath u.Path "drools-wb/logout.jsp"
      = String.mk (q ++ '/' :: "drools-wb/logout.jsp".data) := String.ext h3
  refine ⟨unescapePath (bytes (String.mk q)), ?_, ?_, ?_⟩
  · cases q with
    | nil => rfl
    | cons c q =>
      have hc : c = '/' := by simpa using hq
      subst hc
      have := unescapePath_slash [] q
      simp only [List.nil_append] at this
      rw [this]
      rfl
  · simp only [URL.decodedPath, resolved, e2, unescapePath_slash]
    rfl
  · simp only [URL.decodedPath, resolved, e3, unescapePath_slash]
    rfl

/-- The default path of a cookie set for `d/seg` is `d`, or / when `d` is
empty. -/
theorem defaultPath_shape (d seg : List Nat) (hd : (d ++ [47]).head? = some 47)
    (hseg : 47 ∉ seg) :
    defaultPath (d ++ 47 :: seg) = if d = [] then [47] else d := by
  have hhead : (d ++ 47 :: seg).head? = some 47 := by
    cases d with
    | nil => rfl
    | cons c d => simpa using hd
  have hrev : (d ++ 47 :: seg).reverse = seg.reverse ++ 47 :: d.reverse := by simp
  have hdrop : ((d ++ 47 :: seg).reverse.dropWhile (fun c => c != 47)) = 47 :: d.reverse := by
    rw [hrev, List.dropWhile_append_of_pos]
    · simp [List.dropWhile]
    · intro c hc
      have : c ≠ 47 := fun h => hseg (by simpa [h] using hc)
      simpa using this
  have hb : pathBeforeLastSlash (d ++ 47 :: seg) = some d := by
    have hc : (d ++ 47 :: seg).contains 47 = true := by simp
    unfold pathBeforeLastSlash
    rw [if_pos hc, hdrop]
    simp
  simp only [defaultPath, hhead, hb]
  cases d <;> simp

/-- An entry whose path is `d`, or / when `d` is empty, matches every request
path `d/rest`. -/
theorem pathMatch_shape (e : entry) (d rest : List Nat)
    (he : e.Path = if d = [] then [47] else d) :
    e.pathMatch (d ++ 47 :: rest) = true := by
  unfold entry.pathMatch
  split_ifs with h1 h2 h3
  · rfl
  · rfl
  · cases d with
    | nil => simp [he] at h3
    | cons c d =>
      simp only [he, reduceCtorEq, if_false]
      simp [List.getElem_append_right]
  · exfalso
    apply h2
    cases d with
    | nil => simp [he]
    | cons c d => simp [he]

/-- The jar after `SetCookies` in `Logout` holds one entry, with the name and the
value of the session. -/
theorem logout_setCookies (env : Env σ) (u : URL) (host : String) (session : Session)
    (hscheme : u.Scheme = "http" ∨ u.Scheme = "https")
    (hhost : env.canonicalHost u.Host = .ok host) :
    Jar.New.SetCookies env (resolved u "drools-wb")
        [{ Name := session.Key, Value := session.ID, Path := "drools-wb" }]
      = { entries := [{ Name := session.Key, Value := session.ID, Domain := host
                        Path := defaultPath (resolved u "drools-wb").decodedPath
                        Secure := false, HostOnly := true, seqNum := 0 }]
          nextSeqNum := 1 } := by
  have hs : ¬ (u.Scheme ≠ "http" ∧ u.Scheme ≠ "https") := by
    rcases hscheme with h | h <;> simp [h]
  have hpath : ("drools-wb" = "" ∨ "drools-wb".data.head? ≠ some '/') := by decide
  have hr : (resolved u "drools-wb").Scheme = u.Scheme := rfl
  have hh : (resolved u "drools-wb").Host = u.Host := rfl
  simp only [Jar.SetCookies, hr, hh, hhost, List.length_singleton, one_ne_zero, if_false,
    hs, List.foldl_cons, List.foldl_nil, Jar.store, Jar.New, List.find?_nil, newEntry,
    hpath, if_true, List.nil_append]

/-- The cookie that jar returns for the logout URL. -/
theorem logout_cookies (env : Env σ) (u r : URL) (host : String) (session : Session)
    (hscheme : u.Scheme = "http" ∨ u.Scheme = "https")
    (hrs : r.Scheme = u.Scheme) (hrh : env.canonicalHost r.Host = .ok host)
    (hrp : r.Path = (resolved u "drools-wb/logout.jsp").Path) :
    Jar.Cookies env
        { entries := [{ Name := session.Key, Value := session.ID, Domain := host
                        Path := defaultPath (resolved u "drools-wb").decodedPath
                        Secure := false, HostOnly := true, seqNum := 0 }]
          nextSeqNum := 1 } r
      = [{ Name := session.Key, Value := session.ID }] := by
  have hs : ¬ (r.Scheme ≠ "http" ∧ r.Scheme ≠ "https") := by
    rw [hrs]
    rcases hscheme with h | h <;> simp [h]
  obtain ⟨d, hd, h2, h3⟩ := decodedPath_shape u
  have hrd : r.decodedPath = d ++ 47 :: bytes "drools-wb/logout.jsp" := by
    rw [← h3]
    simp only [URL.decodedPath, hrp]
  have hne : r.decodedPath ≠ [] := by
    rw [hrd]
    simp
  have hdef := defaultPath_shape d (bytes "drools-wb") hd (by decide)
  have hm : ∀ e : entry, e.Path = defaultPath (resolved u "drools-wb").decodedPath →
      e.pathMatch r.decodedPath = true := by
    intro e he
    rw [hrd]
    exact pathMatch_shape e d _ (by rw [he, h2, hdef])
  simp only [Jar.Cookies, hs, if_false, hrh, hne]
  simp [entry.shouldSend, entry.domainMatch, hm]

/-- A name without line breaks is not changed by `sanitizeCookieName`. -/
theorem sanitizeCookieName_plain (n : String) (h : plainCookieName n) :
    sanitizeCookieName n = n := by
  apply String.ext
  simp only [sanitizeCookieName]
  conv_rhs => rw [← List.map_id n.data]
  apply List.map_congr_left
  intro c hc
  have := h c hc
  simp [this.1, this.2]

/-- A value of valid bytes without space and comma is not changed by
`sanitizeCookieValue`. -/
theorem sanitizeCookieValue_plain (v : String) (h : plainCookieValue v) :
    sanitizeCookieValue v = v := by
  have hf : v.data.filter (fun c => validCookieValueByte c.toNat) = v.data := by
    rw [List.filter_eq_self]
    intro c hc
    exact (h c hc).1
  have hs : v.data.contains ' ' = false := by
    simp only [List.contains_eq_any_beq, List.any_eq_false, beq_iff_eq]
    intro c hc heq
    exact (h c hc).2.1 heq.symm
  have hcm : v.data.contains ',' = false := by
    simp only [List.contains_eq_any_beq, List.any_eq_false, beq_iff_eq]
    intro c hc heq
    exact (h c hc).2.2 heq.symm
  apply String.ext
  simp only [sanitizeCookieValue, hf, hs, hcm]
  by_cases he : v.data = [] <;> simp [he]

/-! ## Login -/

/-- C1. Login success: when the endpoint parses, the pre-flight GET and the login
POST both answer 200, and the cookies the jar then returns for the application
root contain one named JSESSIONID, `Login` returns a nil error and the session
whose ID is the value of the first such cookie and whose Key is "JSESSIONID". -/
theorem Login_success (env : Env σ) (w w1 w2 : σ) (endpoint username password : String)
    (u u2 u3 : URL) (t1 t2 : List Request) (resp1 resp2 : Response) (jar1 jar2 : Jar)
    (c : Cookie)
    (hu : env.urlParse endpoint = .ok u)
    (h2 : u.Parse env "drools-wb" = .ok u2)
    (hget : Client.Get env w Jar.New u2.String = (w1, t1, .ok (resp1, jar1)))
    (hs1 : resp1.StatusCode = 200)
    (h3 : u.Parse env "drools-wb/j_security_check" = .ok u3)
    (hpost : Client.PostForm env w1 jar1 u3.String
      [("j_username", [username]), ("j_password", [password])] = (w2, t2, .ok (resp2, jar2)))
    (hs2 : resp2.StatusCode = 200)
    (hc : (jar2.Cookies env u2).find? (fun c => c.Name == "JSESSIONID") = some c) :
    (Login env w endpoint username password).1
      = .ok { ID := c.Value, Key := "JSESSIONID" } := by
  have hname : c.Name = "JSESSIONID" := by
    have := List.find?_some hc
    simpa using this
  have hne : (jar2.Cookies env u2).length ≠ 0 := by
    intro h0
    rw [List.length_eq_zero] at h0
    rw [h0] at hc
    simp at hc
  simp [Login, hu, h2, hget, hs1, h3, hpost, hs2, hne, scanCookies_eq_find, hc, hname]

/-- C1, on the scripted server: both requests answer 200 and the login leaves a
JSESSIONID cookie with value abc. -/
theorem Login_success_witness :
    (Login scripted [(200, {}), (200, jarWith "JSESSIONID" "abc")] "http://h" "alice"
        "secret").1 = .ok { ID := "abc", Key := "JSESSIONID" } :=
  Login_success scripted [(200, {}), (200, jarWith "JSESSIONID" "abc")]
    [(200, jarWith "JSESSIONID" "abc")] [] "http://h" "alice" "secret"
    { Scheme := "http", Host := "h" }
    { Scheme := "http", Host := "h", Path := "/drools-wb" }
    { Scheme := "http", Host := "h", Path := "/drools-wb/j_security_check" }
    _ _ ⟨200⟩ ⟨200⟩ {} (jarWith "JSESSIONID" "abc") { Name := "JSESSIONID", Value := "abc" }
    rfl rfl rfl rfl rfl rfl rfl rfl

/-- C2. When the pre-flight GET answers with a status other than 200, `Login`
returns a nil session with the unexpected-status error carrying that status,
and the requests it issued are the single pre-flight GET: there is no POST. -/
theorem Login_preflight_status (env : Env σ) (w w1 : σ)
    (endpoint username password : String) (u u2 : URL) (t1 : List Request)
    (resp1 : Response) (jar1 : Jar)
    (hu : env.urlParse endpoint = .ok u)
    (h2 : u.Parse env "drools-wb" = .ok u2)
    (hget : Client.Get env w Jar.New u2.String = (w1, t1, .ok (resp1, jar1)))
    (hs1 : resp1.StatusCode ≠ 200) :
    (Login env w endpoint username password).1
        = .error (.unexpectedStatus resp1.StatusCode)
      ∧ (∃ req, (Login env w endpoint username password).2 = [req]
          ∧ req.Method = "GET" ∧ req.URL = u2.String)
      ∧ ∀ r ∈ (Login env w endpoint username password).2, r.Method ≠ "POST" := by
  obtain ⟨reqURL, _, ht⟩ := Client.send_ok hget
  have hL : Login env w endpoint username password
      = (.error (.unexpectedStatus resp1.StatusCode), t1) := by
    simp [Login, hu, h2, hget, hs1]
  rw [hL]
  refine ⟨rfl, ⟨_, ht, rfl, rfl⟩, ?_⟩
  intro r hr
  simp only [ht, List.mem_singleton] at hr
  subst hr
  show "GET" ≠ "POST"
  decide

/-- C2, on the scripted server answering the pre-flight GET with 503. -/
theorem Login_preflight_status_witness :
    (Login scripted [(503, {})] "http://h" "alice" "secret").1
        = .error (.unexpectedStatus 503)
      ∧ (∃ req, (Login scripted [(503, {})] "http://h" "alice" "secret").2 = [req]
          ∧ req.Method = "GET"
          ∧ req.URL = URL.String { Scheme := "http", Host := "h", Path := "/drools-wb" })
      ∧ ∀ r ∈ (Login scripted [(503, {})] "http://h" "alice" "secret").2,
          r.Method ≠ "POST" :=
  Login_preflight_status scripted [(503, {})] [] "http://h" "alice" "secret"
    { Scheme := "http", Host := "h" }
    { Scheme := "http", Host := "h", Path := "/drools-wb" } _ ⟨503⟩ {}
    rfl rfl rfl (by decide)

/-- C3. When the pre-flight GET and the login POST both answer 200: if the jar
returns no cookie for the application root, `Login` fails with the error
"no cookies for endpoint"; if it returns cookies but none is named JSESSIONID,
`Login` fails with the error "session not found".  Either way the session is
nil, and the two errors differ. -/
theorem Login_cookie_errors (env : Env σ) (w w1 w2 : σ)
    (endpoint username password : String)
    (u u2 u3 : URL) (t1 t2 : List Request) (resp1 resp2 : Response) (jar1 jar2 : Jar)
    (hu : env.urlParse endpoint = .ok u)
    (h2 : u.Parse env "drools-wb" = .ok u2)
    (hget : Client.Get env w Jar.New u2.String = (w1, t1, .ok (resp1, jar1)))
    (hs1 : resp1.StatusCode = 200)
    (h3 : u.Parse env "drools-wb/j_security_check" = .ok u3)
    (hpost : Client.PostForm env w1 jar1 u3.String
      [("j_username", [username]), ("j_password", [password])] = (w2, t2, .ok (resp2, jar2)))
    (hs2 : resp2.StatusCode = 200) :
    (jar2.Cookies env u2 = [] →
        (Login env w endpoint username password).1
          = .error (.new "no cookies for endpoint"))
      ∧ (jar2.Cookies env u2 ≠ [] → (∀ c ∈ jar2.Cookies env u2, c.Name ≠ "JSESSIONID") →
        (Login env w endpoint username password).1 = .error (.new "session not found"))
      ∧ Error.new "no cookies for endpoint" ≠ Error.new "session not found" := by
  refine ⟨?_, ?_, by decide⟩
  · intro h0
    simp [Login, hu, h2, hget, hs1, h3, hpost, hs2, h0]
  · intro hne hall
    have hlen : (jar2.Cookies env u2).length ≠ 0 := by
      simpa [List.length_eq_zero] using hne
    have hfind : (jar2.Cookies env u2).find? (fun c => c.Name == "JSESSIONID") = none := by
      rw [List.find?_eq_none]
      intro c hc
      simpa using hall c hc
    simp [Login, hu, h2, hget, hs1, h3, hpost, hs2, hlen, scanCookies_eq_find, hfind]

/-- C3, on the scripted server whose login leaves a single cookie named OTHER:
the jar is not empty, so the error is "session not found". -/
theorem Login_cookie_errors_witness :
    (Jar.Cookies scripted (jarWith "OTHER" "x")
        { Scheme := "http", Host := "h", Path := "/drools-wb" } = [] →
        (Login scripted [(200, {}), (200, jarWith "OTHER" "x")] "http://h" "alice"
          "secret").1 = .error (.new "no cookies for endpoint"))
      ∧ (Jar.Cookies scripted (jarWith "OTHER" "x")
            { Scheme := "http", Host := "h", Path := "/drools-wb" } ≠ [] →
          (∀ c ∈ Jar.Cookies scripted (jarWith "OTHER" "x")
            { Scheme := "http", Host := "h", Path := "/drools-wb" }, c.Name ≠ "JSESSIONID") →
          (Login scripted [(200, {}), (200, jarWith "OTHER" "x")] "http://h" "alice"
            "secret").1 = .error (.new "session not found"))
      ∧ Error.new "no cookies for endpoint" ≠ Error.new "session not found" :=
  Login_cookie_errors scripted [(200, {}), (200, jarWith "OTHER" "x")]
    [(200, jarWith "OTHER" "x")] [] "http://h" "alice" "secret"
    { Scheme := "http", Host := "h" }
    { Scheme := "http", Host := "h", Path := "/drools-wb" }
    { Scheme := "http", Host := "h", Path := "/drools-wb/j_security_check" }
    _ _ ⟨200⟩ ⟨200⟩ {} (jarWith "OTHER" "x")
    rfl rfl rfl rfl rfl rfl rfl

/-! ## Logout -/

/-- C4, as stated, fails in two ways.  For an endpoint that parses but is not
served over HTTP, ftp://h, the jar ignores `SetCookies`: the jar `Logout`
builds is empty and the request carries no cookie.  And for the endpoint
http://h and the session with key JSESSIONID and id a;b the cookie is not
presented unmodified: the Cookie header is JSESSIONID=ab, the semicolon being
dropped by `AddCookie`. -/
theorem Logout_counterexample :
    (scripted.urlParse "ftp://h" = .ok { Scheme := "ftp", Host := "h" }
      ∧ (Logout scripted [(200, {})] "ftp://h" { ID := "abc", Key := "JSESSIONID" }).2.1.entries
        = []
      ∧ (Logout scripted [(200, {})] "ftp://h" { ID := "abc", Key := "JSESSIONID" }).2.2.map
          (fun r => r.Cookie) = [""])
    ∧ ((Logout scripted [(200, {})] "http://h" { ID := "a;b", Key := "JSESSIONID" }).2.2.map
          (fun r => r.Cookie) = ["JSESSIONID=ab"]
      ∧ "JSESSIONID=ab" ≠ "JSESSIONID" ++ "=" ++ "a;b") := by
  refine ⟨⟨rfl, by decide, by decide⟩, by decide, by decide⟩

/-- C4, amended. For every endpoint that parses as a URL with scheme http or https
whose host the jar can canonicalise, and every session, `Logout` builds a jar
containing exactly one cookie, with name `Session.Key` and value
`Session.ID`; it issues exactly one request, a GET of the logout page whose
Cookie header presents exactly that cookie and no other, written by
`AddCookie` as the sanitised key, an equals sign and the sanitised id, which
is Key=ID unmodified when the key holds no line break and the id only valid
cookie bytes without space and comma; and it returns the unexpected-status
error when the status of the response is not 200 and nil when it is 200.
The hypotheses `ha` and `hc` are the value of `url.Parse` on the two constant
references; `hp`, `hrs`, `hrh` and `hrp` say that the text of the logout URL
parses to a URL with the same scheme, canonical host and path; `hrt` that the
exchange yields a response. -/
theorem Logout_presents_session (env : Env σ) (w w1 : σ) (endpoint : String)
    (session : Session) (u r : URL) (host : String) (resp : Response) (jar1 : Jar)
    (hu : env.urlParse endpoint = .ok u)
    (hscheme : u.Scheme = "http" ∨ u.Scheme = "https")
    (hhost : env.canonicalHost u.Host = .ok host)
    (ha : env.urlParse "drools-wb" = .ok { Path := "drools-wb" })
    (hc : env.urlParse "drools-wb/logout.jsp" = .ok { Path := "drools-wb/logout.jsp" })
    (hp : env.urlParse (resolved u "drools-wb/logout.jsp").String = .ok r)
    (hrs : r.Scheme = u.Scheme) (hrh : env.canonicalHost r.Host = .ok host)
    (hrp : r.Path = (resolved u "drools-wb/logout.jsp").Path)
    (hrt : env.roundTrip w (Logout env w endpoint session).2.1 (logoutRequest u session)
      = (w1, .ok (resp, jar1))) :
    (∃ e, (Logout env w endpoint session).2.1.entries = [e]
        ∧ e.Name = session.Key ∧ e.Value = session.ID)
      ∧ (Logout env w endpoint session).2.2 = [logoutRequest u session]
      ∧ (plainCookieName session.Key → plainCookieValue session.ID →
          (logoutRequest u session).Cookie = session.Key ++ "=" ++ session.ID)
      ∧ (Logout env w endpoint session).1 =
          if resp.StatusCode = 200 then none
          else some (.unexpectedStatus resp.StatusCode) := by
  have h2 := parse_path env u "drools-wb" (by decide) ha
  have h3 := parse_path env u "drools-wb/logout.jsp" (by decide) hc
  have hj := logout_setCookies env u host session hscheme hhost
  have hk := logout_cookies env u r host session hscheme hrs hrh hrp
  have hreq : ({ Method := "GET", URL := (resolved u "drools-wb/logout.jsp").String
                 Cookie := List.foldl AddCookie ""
                   [{ Name := session.Key, Value := session.ID }] } : Request)
      = logoutRequest u session := by
    simp [logoutRequest, AddCookie]
  have hL := Logout_requests env w endpoint session u _ _ r hu h2 h3 hp
  rw [hj, hk, hreq] at hL
  have hjar : (Logout env w endpoint session).2.1 = _ := congrArg Prod.fst hL
  have htr : (Logout env w endpoint session).2.2 = _ := congrArg Prod.snd hL
  rw [hjar] at hrt
  refine ⟨⟨_, congrArg Jar.entries hjar, rfl, rfl⟩, htr, ?_, ?_⟩
  · intro hn hv
    simp only [logoutRequest, sanitizeCookieName_plain _ hn, sanitizeCookieValue_plain _ hv]
  · simp only [Logout, hu, h2, h3, hj, Client.Get, Client.send, hp, hk, hreq, hrt]
    by_cases hst : resp.StatusCode = 200 <;> simp [hst]

/-- C4 amended, on the scripted server for the endpoint http://h and the session
JSESSIONID=abc, with the logout answering 200. -/
theorem Logout_presents_session_witness :
    (∃ e, (Logout scripted [(200, {})] "http://h"
          { ID := "abc", Key := "JSESSIONID" }).2.1.entries = [e]
        ∧ e.Name = "JSESSIONID" ∧ e.Value = "abc")
      ∧ (Logout scripted [(200, {})] "http://h" { ID := "abc", Key := "JSESSIONID" }).2.2
          = [{ Method := "GET", URL := "http://h/drools-wb/logout.jsp"
               Cookie := "JSESSIONID=abc" }]
      ∧ (Logout scripted [(200, {})] "http://h" { ID := "abc", Key := "JSESSIONID" }).1
          = none := by
  have h := Logout_presents_session scripted [(200, {})] [] "http://h"
    { ID := "abc", Key := "JSESSIONID" } { Scheme := "http", Host := "h" }
    { Scheme := "http", Host := "h", Path := "/drools-wb/logout.jsp" } "h" ⟨200⟩ {}
    rfl (Or.inl rfl) rfl rfl rfl rfl rfl rfl rfl rfl
  exact ⟨h.1, h.2.1, h.2.2.2⟩

/-! ## the request URLs -/

/-- C5, as stated, fails for an endpoint with a path of its own: for the endpoint
http://h/a the pre-flight GET goes to http://h/drools-wb, the login POST to
http://h/drools-wb/j_security_check and the logout GET to
http://h/drools-wb/logout.jsp, not to http://h/a/drools-wb and below: the
last segment of the endpoint's path is replaced, not kept. -/
theorem request_urls_counterexample :
    URL.String { Scheme := "http", Host := "h", Path := "/a" } = "http://h/a"
      ∧ scripted.urlParse "http://h/a" = .ok { Scheme := "http", Host := "h", Path := "/a" }
      ∧ (Login scripted [(200, {}), (200, {})] "http://h/a" "alice" "secret").2.map
          (fun r => (r.Method, r.URL))
        = [("GET", "http://h/drools-wb"), ("POST", "http://h/drools-wb/j_security_check")]
      ∧ (Logout scripted [(200, {})] "http://h/a" { ID := "abc", Key := "JSESSIONID" }).2.2.map
          (fun r => (r.Method, r.URL))
        = [("GET", "http://h/drools-wb/logout.jsp")]
      ∧ "http://h/drools-wb" ≠ "http://h/a" ++ "/drools-wb" := by
  refine ⟨by decide, rfl, by decide, by decide, by decide⟩

/-- C5, amended. For every endpoint that parses as a URL `u`, every operation path
is resolved against `u` as a relative reference (RFC 3986): the request URL
is the text of the URL with the scheme, userinfo and host of `u`, with the
path `resolvePath(u.Path, ref)`, in which the reference replaces the last
segment of the endpoint's own path, and without the endpoint's query and
fragment.  The pre-flight GET uses the reference drools-wb, the login POST
drools-wb/j_security_check and the logout GET drools-wb/logout.jsp.  When the
endpoint has a host, an empty path, no query and no fragment, the request
URL is the endpoint followed by a slash and the reference.  The hypotheses
`ha`, `hb` and `hc` are the value of `url.Parse` on the three constant
references; `hget`, `hs1`, `hp2` and `hp3` say that the pre-flight GET answers
200 and that `http.NewRequest` accepts the login and logout URLs, so that all
three requests are issued. -/
theorem request_urls (env : Env σ) (w w1 wl : σ) (endpoint username password : String)
    (session : Session) (u r2 r3 : URL) (t1 : List Request) (resp1 : Response) (jar1 : Jar)
    (hu : env.urlParse endpoint = .ok u)
    (ha : env.urlParse "drools-wb" = .ok { Path := "drools-wb" })
    (hb : env.urlParse "drools-wb/j_security_check"
      = .ok { Path := "drools-wb/j_security_check" })
    (hc : env.urlParse "drools-wb/logout.jsp" = .ok { Path := "drools-wb/logout.jsp" })
    (hget : Client.Get env w Jar.New (resolved u "drools-wb").String
      = (w1, t1, .ok (resp1, jar1)))
    (hs1 : resp1.StatusCode = 200)
    (hp2 : env.urlParse (resolved u "drools-wb/j_security_check").String = .ok r2)
    (hp3 : env.urlParse (resolved u "drools-wb/logout.jsp").String = .ok r3) :
    (∃ g p, (Login env w endpoint username password).2 = [g, p]
        ∧ g.Method = "GET" ∧ g.URL = (resolved u "drools-wb").String
        ∧ p.Method = "POST" ∧ p.URL = (resolved u "drools-wb/j_security_check").String)
      ∧ (∃ l, (Logout env wl endpoint session).2.2 = [l]
        ∧ l.Method = "GET" ∧ l.URL = (resolved u "drools-wb/logout.jsp").String)
      ∧ (u.Opaque = "" → u.Host ≠ "" → u.Path = "" → u.ForceQuery = false →
          u.RawQuery = "" → u.Fragment = "" →
          (resolved u "drools-wb").String = u.String ++ "/drools-wb"
            ∧ (resolved u "drools-wb/j_security_check").String
                = u.String ++ "/drools-wb/j_security_check"
            ∧ (resolved u "drools-wb/logout.jsp").String
                = u.String ++ "/drools-wb/logout.jsp") := by
  have h2 := parse_path env u "drools-wb" (by decide) ha
  have h3 := parse_path env u "drools-wb/j_security_check" (by decide) hb
  have h4 := parse_path env u "drools-wb/logout.jsp" (by decide) hc
  refine ⟨?_, ?_, ?_⟩
  · obtain ⟨r1, _, ht1⟩ := Client.send_ok hget
    have hL := Login_requests env w w1 endpoint username password u _ _ r2 t1 resp1 jar1
      hu h2 hget hs1 h3 hp2
    rw [hL, ht1]
    exact ⟨_, _, rfl, rfl, rfl, rfl, rfl⟩
  · have hL := Logout_requests env wl endpoint session u _ _ r3 hu h2 h4 hp3
    rw [hL]
    exact ⟨_, rfl, rfl, rfl⟩
  · intro h1 hh hpath hfq hrq hfr
    have e1 : resolvePath "" "drools-wb" = String.mk ('/' :: "drools-wb".data) := by decide
    have e2 : resolvePath "" "drools-wb/j_security_check"
        = String.mk ('/' :: "drools-wb/j_security_check".data) := by decide
    have e3 : resolvePath "" "drools-wb/logout.jsp"
        = String.mk ('/' :: "drools-wb/logout.jsp".data) := by decide
    simp only [resolved, hpath, e1, e2, e3]
    exact ⟨String_rooted u _ h1 hh hpath hfq hrq hfr,
      String_rooted u _ h1 hh hpath hfq hrq hfr,
      String_rooted u _ h1 hh hpath hfq hrq hfr⟩

/-- C5 amended, on the scripted server with the endpoint http://h, which has a
host and no path: the three requests go to the endpoint followed by the
path. -/
theorem request_urls_witness :
    (Login scripted [(200, {}), (200, {})] "http://h" "alice" "secret").2.map
          (fun r => (r.Method, r.URL))
        = [("GET", "http://h" ++ "/drools-wb"),
           ("POST", "http://h" ++ "/drools-wb/j_security_check")]
      ∧ (Logout scripted [(200, {})] "http://h" { ID := "abc", Key := "JSESSIONID" }).2.2.map
          (fun r => (r.Method, r.URL))
        = [("GET", "http://h" ++ "/drools-wb/logout.jsp")] := by
  have h := request_urls scripted [(200, {}), (200, {})] [(200, {})] [(200, {})]
    "http://h" "alice" "secret" { ID := "abc", Key := "JSESSIONID" }
    { Scheme := "http", Host := "h" }
    { Scheme := "http", Host := "h", Path := "/drools-wb/j_security_check" }
    { Scheme := "http", Host := "h", Path := "/drools-wb/logout.jsp" }
    [{ Method := "GET", URL := "http://h/drools-wb" }] ⟨200⟩ {}
    rfl rfl rfl rfl rfl rfl rfl rfl
  obtain ⟨⟨g, p, hL, hg, hgu, hp, hpu⟩, ⟨l, hO, hl, hlu⟩, hS⟩ := h
  obtain ⟨s1, s2, s3⟩ := hS rfl (by decide) rfl rfl rfl rfl
  rw [hL, hO]
  simp only [List.map_cons, List.map_nil, hg, hgu, hp, hpu, hl, hlu, s1, s2, s3]
  exact ⟨rfl, rfl⟩

/-! ## the login form -/

/-- C6, as stated, fails: for username alice and password secret the body of the
login POST is not j_username=alice&j_password=secret, it starts with the
password field. -/
theorem Login_post_body_counterexample :
    ∃ r ∈ (Login scripted [(200, {}), (200, jarWith "JSESSIONID" "abc")] "http://h"
        "alice" "secret").2,
      r.Method = "POST" ∧ r.Body = "j_password=secret&j_username=alice"
        ∧ r.Body ≠ "j_username=" ++ QueryEscape "alice" ++ "&j_password="
            ++ QueryEscape "secret" :=
  ⟨{ Method := "POST", URL := "http://h/drools-wb/j_security_check"
     ContentType := "application/x-www-form-urlencoded"
     Body := "j_password=secret&j_username=alice" },
    by decide, rfl, rfl, by decide⟩

/-- C6, amended. When the pre-flight GET answers 200 and the login URL is accepted
by `http.NewRequest`, `Login` issues after the pre-flight request exactly one
more request, a POST to the login URL with content type
application/x-www-form-urlencoded whose body is
j_password=<p>&j_username=<u>: the password field first (`Encode` sorts the
keys), then the username field, each value escaped by `QueryEscape`.  An
escaped value contains no `&` and no `=`, so the body has exactly these two
fields. -/
theorem Login_post_body (env : Env σ) (w w1 : σ) (endpoint username password : String)
    (u u2 u3 reqURL : URL) (t1 : List Request) (resp1 : Response) (jar1 : Jar)
    (hu : env.urlParse endpoint = .ok u)
    (h2 : u.Parse env "drools-wb" = .ok u2)
    (hget : Client.Get env w Jar.New u2.String = (w1, t1, .ok (resp1, jar1)))
    (hs1 : resp1.StatusCode = 200)
    (h3 : u.Parse env "drools-wb/j_security_check" = .ok u3)
    (hp : env.urlParse u3.String = .ok reqURL) :
    (∃ req, (Login env w endpoint username password).2 = t1 ++ [req]
        ∧ req.Method = "POST" ∧ req.URL = u3.String
        ∧ req.ContentType = "application/x-www-form-urlencoded"
        ∧ req.Body = "j_password=" ++ QueryEscape password ++ "&j_username="
            ++ QueryEscape username)
      ∧ '&' ∉ (QueryEscape username).data ∧ '=' ∉ (QueryEscape username).data
      ∧ '&' ∉ (QueryEscape password).data ∧ '=' ∉ (QueryEscape password).data := by
  refine ⟨⟨{ Method := "POST", URL := u3.String
             ContentType := "application/x-www-form-urlencoded"
             Body := Values.Encode [("j_username", [username]), ("j_password", [password])]
             Cookie := (jar1.Cookies env reqURL).foldl AddCookie "" },
      ?_, rfl, rfl, rfl, Values.Encode_login username password⟩,
    (QueryEscape_sep username).1, (QueryEscape_sep username).2,
    (QueryEscape_sep password).1, (QueryEscape_sep password).2⟩
  exact Login_requests env w w1 endpoint username password u u2 u3 reqURL t1 resp1 jar1
    hu h2 hget hs1 h3 hp

/-- C6 amended, on the scripted server: after the pre-flight GET comes one POST
with body j_password=...&j_username=... -/
theorem Login_post_body_witness :
    (∃ req, (Login scripted [(200, {}), (200, jarWith "JSESSIONID" "abc")] "http://h"
          "alice" "secret").2
          = [{ Method := "GET", URL := "http://h/drools-wb" }] ++ [req]
        ∧ req.Method = "POST"
        ∧ req.URL = URL.String
            { Scheme := "http", Host := "h", Path := "/drools-wb/j_security_check" }
        ∧ req.ContentType = "application/x-www-form-urlencoded"
        ∧ req.Body = "j_password=" ++ QueryEscape "secret" ++ "&j_username="
            ++ QueryEscape "alice")
      ∧ '&' ∉ (QueryEscape "alice").data ∧ '=' ∉ (QueryEscape "alice").data
      ∧ '&' ∉ (QueryEscape "secret").data ∧ '=' ∉ (QueryEscape "secret").data :=
  Login_post_body scripted [(200, {}), (200, jarWith "JSESSIONID" "abc")]
    [(200, jarWith "JSESSIONID" "abc")] "http://h" "alice" "secret"
    { Scheme := "http", Host := "h" }
    { Scheme := "http", Host := "h", Path := "/drools-wb" }
    { Scheme := "http", Host := "h", Path := "/drools-wb/j_security_check" }
    { Scheme := "http", Host := "h", Path := "/drools-wb/j_security_check" }
    [{ Method := "GET", URL := "http://h/drools-wb" }] ⟨200⟩ {}
    rfl rfl rfl rfl rfl rfl

/-! ## the tunnel -/

/-- C7. Tunnel dial failure: when `net.Dial` fails the handler dials exactly once,
writes an HTTP 500 response, logs the error and returns: it does not hijack
the connection, writes the request to no socket and starts no copy loop. -/
theorem handler_dial_failure (targetURL : String) (o : Outcomes) (err : String)
    (hd : o.dial = some err) :
    ProxyDroosWB.handler targetURL o =
        [.dial "tcp" targetURL, .httpError "Error contacting backend server." 500,
         .logPrintf ("Error dialing websocket backend " ++ targetURL ++ ": " ++ err)]
      ∧ (ProxyDroosWB.handler targetURL o).count (.dial "tcp" targetURL) = 1
      ∧ Effect.hijack ∉ ProxyDroosWB.handler targetURL o
      ∧ (∀ c, Effect.requestWrite c ∉ ProxyDroosWB.handler targetURL o)
      ∧ (∀ dst src, Effect.go dst src ∉ ProxyDroosWB.handler targetURL o) := by
  have h : ProxyDroosWB.handler targetURL o =
      [.dial "tcp" targetURL, .httpError "Error contacting backend server." 500,
       .logPrintf ("Error dialing websocket backend " ++ targetURL ++ ": " ++ err)] := by
    simp [ProxyDroosWB.handler, hd]
  rw [h]
  refine ⟨rfl, ?_, ?_, ?_, ?_⟩ <;> simp

/-- C7, for a backend at 10.0.0.1:8080 that refuses the connection. -/
theorem handler_dial_failure_witness :
    ProxyDroosWB.handler "10.0.0.1:8080" { dial := some "connection refused" } =
        [.dial "tcp" "10.0.0.1:8080", .httpError "Error contacting backend server." 500,
         .logPrintf ("Error dialing websocket backend " ++ "10.0.0.1:8080" ++ ": "
            ++ "connection refused")]
      ∧ (ProxyDroosWB.handler "10.0.0.1:8080" { dial := some "connection refused" }).count
          (.dial "tcp" "10.0.0.1:8080") = 1
      ∧ Effect.hijack ∉ ProxyDroosWB.handler "10.0.0.1:8080" { dial := some "connection refused" }
      ∧ (∀ c, Effect.requestWrite c ∉
          ProxyDroosWB.handler "10.0.0.1:8080" { dial := some "connection refused" })
      ∧ (∀ dst src, Effect.go dst src ∉
          ProxyDroosWB.handler "10.0.0.1:8080" { dial := some "connection refused" }) :=
  handler_dial_failure "10.0.0.1:8080" { dial := some "connection refused" }
    "connection refused" rfl

/-- Resource discipline as the code has it: the handler closes every socket it
acquired exactly when it does not leave through a hijack failure: if the dial succeeded and the writer is no
hijacker, or `Hijack` fails, the backend socket `d` is acquired and never
closed. -/
theorem handler_closes_acquired_iff (targetURL : String) (o : Outcomes) :
    (∀ c ∈ acquired o, Effect.close c ∈ ProxyDroosWB.handler targetURL o)
      ↔ ¬ (o.dial = none ∧ (o.hijacker = false ∨ o.hijack ≠ none)) := by
  obtain ⟨dial, hijacker, hijack, write⟩ := o
  cases dial <;> cases hijacker <;> cases hijack <;> cases write <;>
    simp [acquired, ProxyDroosWB.handler]

/-- C8 fails on the code: with a reachable backend and a response writer that is
not a hijacker, the handler returns after the 500 response with the backend
socket acquired and not closed. -/
theorem handler_leaks_backend_socket :
    ProxyDroosWB.handler "10.0.0.1:8080" { hijacker := false } =
        [.dial "tcp" "10.0.0.1:8080", .httpError "Not a hijacker?" 500]
      ∧ Conn.d ∈ acquired { hijacker := false }
      ∧ Effect.close Conn.d ∉ ProxyDroosWB.handler "10.0.0.1:8080" { hijacker := false } := by
  decide

/-- C9, as stated, fails on both hijack failures: a writer that is no hijacker
gets the 500 response but nothing is logged, and an error of `Hijack` is
logged but no 500 response is written. -/
theorem handler_hijack_failure_counterexample :
    (∀ text, Effect.logPrintf text ∉
        ProxyDroosWB.handler "10.0.0.1:8080" { hijacker := false })
      ∧ (∀ msg, Effect.httpError msg 500 ∉
        ProxyDroosWB.handler "10.0.0.1:8080" { hijack := some "conn closed" }) := by
  constructor <;> intro x <;> simp [ProxyDroosWB.handler]

/-- C9, amended. After a successful dial, if the response writer is no hijacker
the handler answers HTTP 500, and that is all it does (there is no error
value, and nothing is logged); if `Hijack` returns an error the handler logs
that error; in both cases it returns without replaying the request and
without starting a copy loop. -/
theorem handler_hijack_failure (targetURL : String) (o : Outcomes)
    (hd : o.dial = none) (hf : o.hijacker = false ∨ o.hijack ≠ none) :
    (o.hijacker = false →
        ProxyDroosWB.handler targetURL o =
          [.dial "tcp" targetURL, .httpError "Not a hijacker?" 500])
      ∧ (o.hijacker = true → ∀ err, o.hijack = some err →
        Effect.logPrintf ("Hijack error: " ++ err) ∈ ProxyDroosWB.handler targetURL o)
      ∧ (∀ c, Effect.requestWrite c ∉ ProxyDroosWB.handler targetURL o)
      ∧ (∀ dst src, Effect.go dst src ∉ ProxyDroosWB.handler targetURL o) := by
  obtain ⟨dial, hijacker, hijack, write⟩ := o
  simp only at hd hf
  subst hd
  cases hijacker <;> cases hijack <;> simp_all [ProxyDroosWB.handler]

/-- C9 amended, for a `Hijack` that fails with "conn closed": the error is logged,
nothing is replayed and no copy loop is started. -/
theorem handler_hijack_failure_witness :
    Effect.logPrintf ("Hijack error: " ++ "conn closed") ∈
        ProxyDroosWB.handler "10.0.0.1:8080" { hijack := some "conn closed" }
      ∧ (∀ c, Effect.requestWrite c ∉
          ProxyDroosWB.handler "10.0.0.1:8080" { hijack := some "conn closed" })
      ∧ (∀ dst src, Effect.go dst src ∉
          ProxyDroosWB.handler "10.0.0.1:8080" { hijack := some "conn closed" }) :=
  have h := handler_hijack_failure "10.0.0.1:8080" { hijack := some "conn closed" } rfl
    (Or.inr (by decide))
  ⟨h.2.1 rfl "conn closed" rfl, h.2.2.1, h.2.2.2⟩

/-! ## the relay -/

/-- The invariant holds when the two loops have been started. -/
theorem Relay.inv_init : Relay.init.Inv := by
  simp [Relay.Inv, Relay.init]

/-- Every step keeps the invariant. -/
theorem Relay.inv_step {s s1 : Relay} (a : Action) (hs : s.Inv) (h : s.step a = some s1) :
    s1.Inv := by
  obtain ⟨cap, buf, up, down, hpc, received, dClosed, ncClosed⟩ := s
  obtain ⟨h1, h2, h3, h4, h5⟩ := hs
  simp only at h1 h2 h3 h4 h5
  cases a <;> simp only [Relay.step] at h <;> split_ifs at h with hc <;>
    simp only [Option.some.injEq] at h <;> subst h <;>
    simp only [Relay.Inv] <;> cases up <;> cases down <;> cases hpc <;>
    simp_all

/-- Every state a schedule reaches keeps the invariant. -/
theorem Relay.inv_run (sched : List Action) : ∀ {s s1 : Relay}, s.Inv →
    s.run sched = some s1 → s1.Inv := by
  induction sched with
  | nil =>
    intro s s1 hs h
    simp only [Relay.run, Option.some.injEq] at h
    exact h ▸ hs
  | cons a as ih =>
    intro s s1 hs h
    simp only [Relay.run] at h
    cases hstep : s.step a with
    | none => simp [hstep] at h
    | some s2 =>
      simp only [hstep, Option.some_bind] at h
      exact ih (Relay.inv_step a hs hstep) h

/-- C10. Tunnel relay teardown. When dial, hijack and replay succeed the handler,
after writing the request to the backend socket, makes a channel of capacity
2, starts exactly two copy loops (`cp(d, nc)`, client to backend, and
`cp(nc, d)`, backend to client), receives once and then closes both sockets.
In every state any schedule of the three goroutines reaches: a loop that is
at its send can take it (the send never blocks, also after the handler has
stopped receiving); the handler has received at most one value; a socket is
closed only after that one receive; and when the handler has returned both
sockets are closed. -/
theorem relay_teardown (targetURL : String) (o : Outcomes) (sched : List Action) (s : Relay)
    (hd : o.dial = none) (hj : o.hijacker = true) (hh : o.hijack = none)
    (hw : o.write = none) (hrun : Relay.init.run sched = some s) :
    ProxyDroosWB.handler targetURL o =
        [.dial "tcp" targetURL, .hijack, .requestWrite .d, .makeChan 2,
         .go .d .nc, .go .nc .d, .recv, .close .d, .close .nc]
      ∧ Relay.init.cap = 2
      ∧ (s.up = .sending → (s.step .upSends).isSome = true)
      ∧ (s.down = .sending → (s.step .downSends).isSome = true)
      ∧ s.received ≤ 1
      ∧ (s.dClosed = true ∨ s.ncClosed = true → s.received = 1)
      ∧ (s.h = .returned → s.received = 1 ∧ s.dClosed = true ∧ s.ncClosed = true) := by
  have hinv := Relay.inv_run sched Relay.inv_init hrun
  obtain ⟨cap, buf, up, down, hpc, received, dClosed, ncClosed⟩ := s
  obtain ⟨h1, h2, h3, h4, h5⟩ := hinv
  simp only at h1 h2 h3 h4 h5
  refine ⟨?_, rfl, ?_, ?_, ?_, ?_, ?_⟩
  · obtain ⟨dial, hijacker, hijack, write⟩ := o
    simp only at hd hj hh hw
    subst hd hj hh hw
    simp [ProxyDroosWB.handler]
  · intro hup
    simp only at hup
    subst hup
    have hb : buf < cap := by
      cases down <;> simp at h2 <;> omega
    simp [Relay.step, hb]
  · intro hdown
    simp only at hdown
    subst hdown
    have hb : buf < cap := by
      cases up <;> simp at h2 <;> omega
    simp [Relay.step, hb]
  · simp only
    rw [h3]
    split_ifs <;> omega
  · simp only
    rintro (hc | hc)
    · rw [h3]
      rcases h4.1 hc with h | h <;> simp [h]
    · rw [h3]
      simp [h5.1 hc]
  · simp only
    intro hr
    refine ⟨?_, h4.2 (Or.inr hr), h5.2 hr⟩
    rw [h3]
    simp [hr]

/-- C10, on the schedule where the client-to-backend loop ends first, the handler
receives, closes both sockets and returns, and only then the other loop ends:
its send is not blocked. -/
theorem relay_teardown_witness :
    Relay.init.run [.upEnds, .upSends, .recv, .closeD, .closeNC, .downEnds]
        = some Relay.tornDown
      ∧ (Relay.tornDown.step .downSends).isSome = true :=
  ⟨rfl, (relay_teardown "10.0.0.1:8080" {}
    [.upEnds, .upSends, .recv, .closeD, .closeNC, .downEnds] Relay.tornDown
    rfl rfl rfl rfl rfl).2.2.2.1 rfl⟩

end servletutil
